import Mathlib

/-!
Shallow embedding of the ratify sources: the ORAS referrer store
(`pkg/referrerstore/oras/oras.go`) and the SPDX license utilities, together
with a model of the HTTP server's verification pipeline built from the
specification (the server handlers ship outside the provided sources; only
their tests are present, so those parts are modelled from the spec's words).
-/

/-- A byte of blob content; Go bytes are modelled as natural numbers. -/
abbrev GoByte := Nat

/-- OCI descriptor as consumed by `getRawContentFromCache`: only its `Size`
field is read by the embedded code. -/
structure OciDescriptor where
  Size : Nat
deriving Repr, DecidableEq

/-- The single `Read` into a freshly allocated buffer of length `size`
(`oras.go` lines 208-209): `make([]byte, size)` yields `size` zero bytes and
the one read call overwrites the buffer's prefix with `chunk`, the bytes that
read delivered. -/
def readIntoBuf (size : Nat) (chunk : List GoByte) : List GoByte :=
  (chunk ++ List.replicate size 0).take size

/-- `getRawContentFromCache` (`oras.go` 203-214): fetch a reader from the
local cache, allocate a buffer of `descriptor.Size` bytes, issue exactly one
`Read`, and on success return the whole buffer no matter how many bytes the
read filled. `readResult` is the combined outcome of the fetch and the single
read: an error when either fails, otherwise the bytes the read wrote. -/
def getRawContentFromCache (size : Nat) (readResult : Except String (List GoByte)) :
    Except String (List GoByte) :=
  match readResult with
  | .error e => .error e
  | .ok chunk => .ok (readIntoBuf size chunk)

/-- `GetBlobContent` (`oras.go` 135-148): after `oras.Copy` pulls the blob
into the local cache and returns its descriptor, the content is read back via
`getRawContentFromCache`. `copyResult` models the outcome of `oras.Copy` (or
of the registry client creation before it); `read` models the fetch plus the
single read against the local cache. -/
def GetBlobContent (copyResult : Except String OciDescriptor)
    (read : OciDescriptor → Except String (List GoByte)) :
    Except String (List GoByte) :=
  match copyResult with
  | .error e => .error e
  | .ok desc => getRawContentFromCache desc.Size (read desc)

/-- `defaultLocalCachePath` (`oras.go` 40). -/
def defaultLocalCachePath : String := "~/.ratify/local_oras_cache"

/-- `OrasStoreConf` (`oras.go` 44-50). -/
structure OrasStoreConf where
  Name : String
  UseHttp : Bool
  CosignEnabled : Bool
  AuthProvider : String
  LocalCachePath : String
deriving Repr, DecidableEq

/-- `orasStore` (`oras.go` 54-58): `localCache` is the handle returned by
`content.NewOCI`, abstracted over its type; `rawVersion` stands for the
`rawConfig.Version` plumbing recorded alongside the configuration. -/
structure OrasStore (κ : Type) where
  config : OrasStoreConf
  rawVersion : String
  localCache : κ

/-- `orasStoreFactory.Create` (`oras.go` 64-90). The JSON round-trip that
decodes `storeConfig` into `OrasStoreConf` is configuration plumbing and is
modelled by passing the decoded `conf0` directly; `newOCI` models
`content.NewOCI`, which performs I/O and may fail. Note the Go source builds
the cache-creation error with Ruby-style `#\x7b...\x7d` placeholders inside a
plain format string, so that message is the literal text below. -/
def orasStoreFactoryCreate {κ : Type} (newOCI : String → Except String κ)
    (version : String) (conf0 : OrasStoreConf) : Except String (OrasStore κ) :=
  if conf0.AuthProvider ≠ "" then
    .error ("auth provider " ++ conf0.AuthProvider ++ " is not supported")
  else
    let conf := if conf0.LocalCachePath = "" then
      { conf0 with LocalCachePath := defaultLocalCachePath } else conf0
    match newOCI conf.LocalCachePath with
    | .error _ =>
        .error "could not create local oras cache at path #\x7bconf.LocalCachePath\x7d: #\x7berr\x7d"
    | .ok cache => .ok { config := conf, rawVersion := version, localCache := cache }

/-- `PackageLicense` as populated by `GetPackageLicenses`. -/
structure PackageLicense where
  Name : String
  Version : String
  License : String
deriving Repr, DecidableEq

/-- The fields of an SPDX package that `GetPackageLicenses` reads. -/
structure SpdxPackage where
  PackageName : String
  PackageVersion : String
  PackageLicenseConcluded : String
deriving Repr, DecidableEq

/-- An SPDX document as consumed by `GetPackageLicenses`. -/
structure SpdxDocument where
  Packages : List SpdxPackage
deriving Repr, DecidableEq

/-- `GetPackageLicenses` (licensechecker utils 25-35): starting from the empty
list, append one `PackageLicense` per package of the document, in order. -/
def GetPackageLicenses (doc : SpdxDocument) : List PackageLicense :=
  doc.Packages.foldl
    (fun output p =>
      output ++ [{ Name := p.PackageName, Version := p.PackageVersion,
                   License := p.PackageLicenseConcluded }]) []

/-- Whether `small` is a prefix of `big`, on character lists. -/
def listStartsWith : List Char → List Char → Bool
  | _, [] => true
  | [], _ :: _ => false
  | a :: as, b :: bs => a == b && listStartsWith as bs

/-- Whether `small` occurs as a contiguous run inside `big`. -/
def infixSearch : List Char → List Char → Bool
  | small, [] => small.isEmpty
  | small, c :: rest => listStartsWith (c :: rest) small || infixSearch small rest

/-- Go `strings.Contains`: `sub` occurs as a contiguous substring of `s`. -/
def containsSubstr (s sub : String) : Bool :=
  infixSearch sub.toList s.toList

/-- `ContainsLicense` (licensechecker utils 39-58): false on the empty
expression; true when the expression equals the disallowed license exactly;
otherwise true iff the expression contains `disallowed ++ " "` or
`" " ++ disallowed` as a substring. -/
def ContainsLicense (spdxLicenseExpression disallowed : String) : Bool :=
  if spdxLicenseExpression.length = 0 then false
  else if spdxLicenseExpression = disallowed then true
  else
    containsSubstr spdxLicenseExpression (disallowed ++ " ") ||
      containsSubstr spdxLicenseExpression (" " ++ disallowed)

/-- Splits a character list on spaces into its space-delimited words. -/
def splitOnSpace : List Char → List (List Char)
  | [] => [[]]
  | c :: rest =>
      let r := splitOnSpace rest
      if c == ' ' then [] :: r
      else
        match r with
        | [] => [[c]]
        | w :: ws => (c :: w) :: ws

/-- Spec-side reading of a whole-word match, for comparison with
`ContainsLicense` and its own documentation: the disallowed license is one of
the space-delimited words of the expression, or is the whole expression. -/
def occursAsWholeWord (spdxLicenseExpression disallowed : String) : Bool :=
  spdxLicenseExpression = disallowed ||
    (splitOnSpace spdxLicenseExpression.toList).contains disallowed.toList

/-- Modelled from the spec: a parsed subject reference (spec section 3, the
reference parser of section 4.1 being outside the provided sources):
`original` is the raw string, `path` the repository path without tag or
digest, `tag` and `digest` optional. -/
structure Reference where
  original : String
  path : String
  tag : Option String
  digest : Option String
deriving Repr, DecidableEq

/-- One item of a `ProviderResponse` (spec section 3): `value` and `error`
are both optional on the wire. -/
structure ProviderItem where
  key : String
  value : Option String
  error : Option String
deriving Repr, DecidableEq

/-- The response the handler writes (spec section 3): HTTP status, the items
in the order they were appended, and the request-wide `systemError`. -/
structure ProviderResponse where
  status : Nat
  items : List ProviderItem
  systemError : Option String
deriving Repr, DecidableEq

/-- The per-item parse-failure error text (spec sections 4.5 and 7): the
error kind followed by its detail. -/
def referenceInvalidError : String :=
  "ReferenceInvalid: failed to parse subject reference"

/-- Modelled from the spec: one verify worker (spec 4.5 step 3, the handler
being outside the provided sources). The worker parses its key; on failure it
emits the `ReferenceInvalid` item without touching the executor, otherwise it
invokes the executor and emits the value or the executor's error. The second
component counts how many times this worker invoked the executor. -/
def verifyWorker (parse : String → Option Reference)
    (executorVerify : Reference → Except String String) (key : String) :
    ProviderItem × Nat :=
  match parse key with
  | none => ({ key := key, value := none, error := some referenceInvalidError }, 0)
  | some ref =>
      match executorVerify ref with
      | .ok v => ({ key := key, value := some v, error := none }, 1)
      | .error e => ({ key := key, value := none, error := some e }, 1)

/-- Modelled from the spec: the verify handler (spec 4.5, outside the
provided sources): one worker per key of the batch, one item appended per
worker, status 200 even when individual items carry errors. -/
def verifyHandler (parse : String → Option Reference)
    (executorVerify : Reference → Except String String) (keys : List String) :
    ProviderResponse :=
  { status := 200,
    items := keys.map (fun k => (verifyWorker parse executorVerify k).1),
    systemError := none }

/-- How many items of a response carry the given key. -/
def countKey (resp : ProviderResponse) (k : String) : Nat :=
  (resp.items.filter (fun item => item.key == k)).length

/-- Arrival order at the result collector: earlier completion time first. -/
def completionOrder (a b : ProviderItem × Nat) : Prop := a.2 ≤ b.2

instance : DecidableRel completionOrder := fun a b => Nat.decLe a.2 b.2

instance : IsTotal (ProviderItem × Nat) completionOrder :=
  ⟨fun a b => Nat.le_total a.2 b.2⟩

instance : IsTrans (ProviderItem × Nat) completionOrder :=
  ⟨fun _ _ _ => Nat.le_trans⟩

/-- Modelled from the spec: the result collector (spec 4.5 step 4) receives
each worker's item when that worker completes, so the collected sequence is
the workers' items ordered by completion time (stably, ties keeping spawn
order). -/
def collectByCompletion (results : List (ProviderItem × Nat)) :
    List (ProviderItem × Nat) :=
  List.insertionSort completionOrder results

/-- The items the verify workers produce, each paired with the time at which
its worker completes. -/
def verifyWorkerResults (parse : String → Option Reference)
    (executorVerify : Reference → Except String String)
    (keyTimes : List (String × Nat)) : List (ProviderItem × Nat) :=
  keyTimes.map (fun kt => ((verifyWorker parse executorVerify kt.1).1, kt.2))

/-- Modelled from the spec: the verify handler with each subject annotated by
its worker's completion time; items are appended in arrival order at the
collector, not in request order. -/
def verifyHandlerTimed (parse : String → Option Reference)
    (executorVerify : Reference → Except String String)
    (keyTimes : List (String × Nat)) : ProviderResponse :=
  { status := 200,
    items :=
      (collectByCompletion (verifyWorkerResults parse executorVerify keyTimes)).map
        (fun r => r.1),
    systemError := none }

/-- Modelled from the spec: a TTL cache entry (spec section 3). -/
structure CacheEntry where
  value : String
  insertedAt : Nat
deriving Repr, DecidableEq

/-- Modelled from the spec: TTL cache lookup for one key (spec 4.4): hit iff
an entry exists, the TTL is positive, and `now - insertedAt < TTL`;
`TTL = 0` disables caching so every lookup misses. -/
def cacheGet (ttl now : Nat) (entry : Option CacheEntry) : Option String :=
  match entry with
  | none => none
  | some e => if 0 < ttl ∧ now - e.insertedAt < ttl then some e.value else none

/-- Modelled from the spec: one worker's critical section for a fixed subject
reference, as serialized by the keyed single-flight mutex (spec 4.3-4.5):
holding the key's lock at time `now`, the worker looks the key up in the TTL
cache and, on a miss, invokes the executor and stores the result. The state
is the key's cache slot paired with the number of executor invocations so
far. -/
def singleFlightStep (ttl : Nat) (verify : Nat → String)
    (st : Option CacheEntry × Nat) (now : Nat) : Option CacheEntry × Nat :=
  match cacheGet ttl now st.1 with
  | some _ => st
  | none => (some { value := verify now, insertedAt := now }, st.2 + 1)

/-- Modelled from the spec: N workers for the same subject reference execute
their critical sections one after the other, because the keyed mutex admits
one holder per key at a time (spec 4.3); `times` lists the instants at which
the successive workers hold the lock, starting from an empty cache slot. -/
def singleFlightRun (ttl : Nat) (verify : Nat → String) (times : List Nat) :
    Option CacheEntry × Nat :=
  times.foldl (singleFlightStep ttl verify) (none, 0)

/-- The deterministic system error the timeout harness writes (spec 4.2, 7). -/
def timeoutSystemError (deadline : Nat) : String :=
  "operation timed out after duration " ++ toString deadline ++ "ms"

/-- Modelled from the spec: the timeout harness `processTimeout` (spec 4.2,
outside the provided sources). `deadline` is in milliseconds with 0 meaning
no deadline; `handlerDuration` is how long the wrapped handler runs;
`handlerResp` is the response the handler would write. When the handler
returns before the deadline its response is forwarded verbatim; when the
deadline elapses first the harness writes the deterministic 500 response
whose body carries the timeout `systemError`, and whatever the inner handler
writes later is discarded, so none of its items reach the client. -/
def processTimeout (deadline handlerDuration : Nat)
    (handlerResp : ProviderResponse) : ProviderResponse :=
  if deadline = 0 then handlerResp
  else if handlerDuration < deadline then handlerResp
  else { status := 500, items := [], systemError := some (timeoutSystemError deadline) }

/-- Modelled from the spec: the mutate worker (spec 4.6, outside the provided
sources): parse the key; a reference that already carries a digest is
returned unchanged; otherwise the store resolves the subject and the item's
value is the digest-pinned `path@digest`; store errors surface with the
`StoreFailure` kind. -/
def mutateWorker (parse : String → Option Reference)
    (resolveDigest : Reference → Except String String) (key : String) :
    ProviderItem :=
  match parse key with
  | none => { key := key, value := none, error := some referenceInvalidError }
  | some ref =>
      match ref.digest with
      | some _ => { key := key, value := some ref.original, error := none }
      | none =>
          match resolveDigest ref with
          | .ok d => { key := key, value := some (ref.path ++ "@" ++ d), error := none }
          | .error e => { key := key, value := none, error := some ("StoreFailure: " ++ e) }

/-- Modelled from the spec: the mutate handler (spec 4.6): one item per key,
status 200. -/
def mutateHandler (parse : String → Option Reference)
    (resolveDigest : Reference → Except String String) (keys : List String) :
    ProviderResponse :=
  { status := 200,
    items := keys.map (mutateWorker parse resolveDigest),
    systemError := none }

/-- The record built for one SPDX package by `GetPackageLicenses`. -/
def packageToLicense (p : SpdxPackage) : PackageLicense :=
  { Name := p.PackageName, Version := p.PackageVersion,
    License := p.PackageLicenseConcluded }

/-- A parser that rejects every string, as with the key `&&` of the parse
failure test. -/
def demoParseFail : String → Option Reference := fun _ => none

/-- An executor whose verification always succeeds. -/
def demoExec : Reference → Except String String := fun _ => .ok "verified"

/-- The parsed form of the tagged test image. -/
def demoRef : Reference :=
  { original := "localhost:5000/net-monitor:v1",
    path := "localhost:5000/net-monitor",
    tag := some "v1",
    digest := none }

/-- A parser accepting exactly the tagged test image. -/
def demoParse : String → Option Reference :=
  fun s => if s = "localhost:5000/net-monitor:v1" then some demoRef else none

/-- A store resolution returning a fixed digest. -/
def demoResolve : Reference → Except String String :=
  fun _ => .ok "sha256:cafebabe"

/-- An executor invocation result for the single-flight scenario. -/
def demoVerify : Nat → String := fun _ => "success"

/-- A handler response holding one item, to feed the timeout harness. -/
def demoResp : ProviderResponse :=
  { status := 200,
    items := [{ key := "k", value := some "v", error := none }],
    systemError := none }

/-- A `content.NewOCI` stand-in that succeeds and hands back the path. -/
def demoNewOCI : String → Except String String := fun p => .ok p

/-- A store configuration with no auth provider and no local cache path. -/
def demoConf : OrasStoreConf :=
  { Name := "oras", UseHttp := false, CosignEnabled := false,
    AuthProvider := "", LocalCachePath := "" }

/-- A store configuration naming an auth provider. -/
def demoConfAuth : OrasStoreConf :=
  { Name := "oras", UseHttp := false, CosignEnabled := false,
    AuthProvider := "k8s", LocalCachePath := "" }

/-- Helper: a buffer of `size` bytes whose prefix a short read filled keeps
the read bytes followed by the untouched zeroes. -/
theorem readIntoBuf_short (size : Nat) (chunk : List GoByte)
    (h : chunk.length ≤ size) :
    readIntoBuf size chunk = chunk ++ List.replicate (size - chunk.length) 0 := by
  unfold readIntoBuf
  rw [List.take_append_eq_append_take, List.take_of_length_le h, List.take_replicate,
    Nat.min_eq_left (Nat.sub_le _ _)]

/-- Claim C1: a blob fetched through `GetBlobContent` is read from the cache
with one `Read` into a buffer of `descriptor.Size` bytes, and
`getRawContentFromCache` returns that buffer whole: even when the single read
delivered fewer bytes than the size, the result is the partially filled
buffer of exactly `descriptor.Size` bytes (read bytes, then zeroes), not an
error and not a retry. -/
theorem getBlobContent_single_read (desc : OciDescriptor)
    (read : OciDescriptor → Except String (List GoByte)) (chunk : List GoByte)
    (hread : read desc = .ok chunk) (hshort : chunk.length ≤ desc.Size) :
    GetBlobContent (.ok desc) read
        = .ok (chunk ++ List.replicate (desc.Size - chunk.length) 0)
      ∧ ∀ out, GetBlobContent (.ok desc) read = .ok out →
          out.length = desc.Size := by
  have hmain : GetBlobContent (.ok desc) read
      = .ok (chunk ++ List.replicate (desc.Size - chunk.length) 0) := by
    simp [GetBlobContent, getRawContentFromCache, hread, readIntoBuf_short _ _ hshort]
  refine ⟨hmain, ?_⟩
  intro out hout
  rw [hmain] at hout
  injection hout with hout
  rw [← hout, List.length_append, List.length_replicate,
    Nat.add_sub_cancel' hshort]

/-- Witness for C1: a 4-byte descriptor whose single read returns 2 bytes
still yields a 4-byte buffer. -/
theorem getBlobContent_single_read_witness :
    GetBlobContent (Except.ok ⟨4⟩) (fun _ => Except.ok [1, 2])
      = Except.ok ([1, 2] ++ List.replicate (4 - 2) 0) :=
  (getBlobContent_single_read ⟨4⟩ (fun _ => Except.ok [1, 2]) [1, 2] rfl
    (by decide)).1

/-- Helper: folding append-of-singleton over a list from any accumulator is
the accumulator followed by the mapped list. -/
theorem foldl_append_map {α β : Type} (f : α → β) (l : List α) :
    ∀ acc : List β, l.foldl (fun out p => out ++ [f p]) acc = acc ++ l.map f := by
  induction l with
  | nil => intro acc; simp
  | cons p t ih => intro acc; simp [ih]

/-- Claim C8: `GetPackageLicenses` returns one element per package of the
document, in order, copying `PackageName`, `PackageVersion` and
`PackageLicenseConcluded` into `Name`, `Version` and `License`; an empty
document yields the empty list. -/
theorem getPackageLicenses_per_package (doc : SpdxDocument) :
    GetPackageLicenses doc = doc.Packages.map packageToLicense
      ∧ (GetPackageLicenses doc).length = doc.Packages.length
      ∧ (∀ i : Nat, (GetPackageLicenses doc)[i]?
          = doc.Packages[i]?.map packageToLicense)
      ∧ GetPackageLicenses { Packages := [] } = [] := by
  have hmap : GetPackageLicenses doc = doc.Packages.map packageToLicense :=
    foldl_append_map packageToLicense doc.Packages []
  refine ⟨hmap, ?_, ?_, rfl⟩
  · rw [hmap, List.length_map]
  · intro i
    rw [hmap, List.getElem?_map]

/-- Claim C9: `ContainsLicense` is documented as a whole-word match but
matches any substring followed or preceded by a space: on the expression
`AMIT B` the disallowed license `MIT` is reported as contained although it
only occurs inside the longer word `AMIT`. -/
theorem containsLicense_not_whole_word :
    ContainsLicense "AMIT B" "MIT" = true
      ∧ occursAsWholeWord "AMIT B" "MIT" = false := by
  constructor <;> decide

/-- Claim C10: `orasStoreFactory.Create` rejects every configuration naming
an auth provider with an error and no store, and an accepted configuration
whose `localCachePath` is empty yields a store whose local cache path is the
default `~/.ratify/local_oras_cache`. -/
theorem orasCreate_auth_rejected_default_path {κ : Type}
    (newOCI : String → Except String κ) (version : String)
    (conf : OrasStoreConf) :
    (conf.AuthProvider ≠ "" →
      orasStoreFactoryCreate newOCI version conf
        = .error ("auth provider " ++ conf.AuthProvider ++ " is not supported"))
      ∧ (conf.AuthProvider = "" → conf.LocalCachePath = "" →
          ∀ cache, newOCI defaultLocalCachePath = .ok cache →
            orasStoreFactoryCreate newOCI version conf
              = .ok { config := { conf with LocalCachePath := defaultLocalCachePath },
                      rawVersion := version, localCache := cache }) := by
  constructor
  · intro h
    simp [orasStoreFactoryCreate, h]
  · intro hauth hpath cache hcache
    simp [orasStoreFactoryCreate, hauth, hpath, hcache]

/-- Witness for C10: the auth-provider configuration is rejected and the
empty-path configuration gets the default cache path. -/
theorem orasCreate_auth_rejected_default_path_witness :
    orasStoreFactoryCreate demoNewOCI "1.0.0" demoConfAuth
        = Except.error ("auth provider " ++ "k8s" ++ " is not supported")
      ∧ orasStoreFactoryCreate demoNewOCI "1.0.0" demoConf
        = Except.ok { config := { demoConf with LocalCachePath := defaultLocalCachePath },
                      rawVersion := "1.0.0", localCache := defaultLocalCachePath } :=
  ⟨(orasCreate_auth_rejected_default_path demoNewOCI "1.0.0" demoConfAuth).1
      (by decide),
    (orasCreate_auth_rejected_default_path demoNewOCI "1.0.0" demoConf).2
      rfl rfl defaultLocalCachePath rfl⟩

/-- Claim C4: a key that fails reference parsing yields the item whose key is
the input string and whose error is exactly
`ReferenceInvalid: failed to parse subject reference`, with zero executor
invocations for that key, while the batch still answers with status 200 and
one item per peer subject. -/
theorem verify_parse_failure (parse : String → Option Reference)
    (executorVerify : Reference → Except String String) (key : String)
    (keys : List String) (hp : parse key = none) :
    verifyWorker parse executorVerify key
        = ({ key := key, value := none, error := some referenceInvalidError }, 0)
      ∧ (verifyHandler parse executorVerify keys).status = 200
      ∧ (verifyHandler parse executorVerify keys).items.length = keys.length := by
  refine ⟨?_, rfl, ?_⟩
  · simp [verifyWorker, hp]
  · simp [verifyHandler]

/-- Witness for C4: the unparseable key of the parse-failure test. -/
theorem verify_parse_failure_witness :
    verifyWorker demoParseFail demoExec "&&"
        = ({ key := "&&", value := none, error := some referenceInvalidError }, 0)
      ∧ (verifyHandler demoParseFail demoExec ["&&"]).status = 200
      ∧ (verifyHandler demoParseFail demoExec ["&&"]).items.length
          = (["&&"] : List String).length :=
  verify_parse_failure demoParseFail demoExec "&&" ["&&"] rfl

/-- Claim C5: a mutate key parsing to repository path `p` without a digest,
whose store resolution returns digest `d`, yields the item value `p@d`, under
status 200. -/
theorem mutate_value_digest_pinned (parse : String → Option Reference)
    (resolveDigest : Reference → Except String String) (keys : List String)
    (key p d : String) (ref : Reference) (hp : parse key = some ref)
    (hpath : ref.path = p) (hnodig : ref.digest = none)
    (hres : resolveDigest ref = .ok d) :
    mutateWorker parse resolveDigest key
        = { key := key, value := some (p ++ "@" ++ d), error := none }
      ∧ (mutateHandler parse resolveDigest keys).status = 200 := by
  refine ⟨?_, rfl⟩
  simp [mutateWorker, hp, hnodig, hres, hpath]

/-- Witness for C5: the tagged test image pinned to the resolved digest. -/
theorem mutate_value_digest_pinned_witness :
    mutateWorker demoParse demoResolve "localhost:5000/net-monitor:v1"
        = { key := "localhost:5000/net-monitor:v1",
            value := some ("localhost:5000/net-monitor" ++ "@" ++ "sha256:cafebabe"),
            error := none }
      ∧ (mutateHandler demoParse demoResolve
          ["localhost:5000/net-monitor:v1"]).status = 200 :=
  mutate_value_digest_pinned demoParse demoResolve
    ["localhost:5000/net-monitor:v1"] "localhost:5000/net-monitor:v1"
    "localhost:5000/net-monitor" "sha256:cafebabe" demoRef (by decide) rfl rfl rfl

/-- Helper: once the key's cache slot holds an entry inserted at `t0` and
every later lock-holding instant stays within the TTL window, the remaining
workers all hit the cache and the executor count does not move. -/
theorem singleFlight_later_workers_hit (ttl : Nat) (verify : Nat → String)
    (v : String) (t0 : Nat) (httl : 0 < ttl) :
    ∀ (rest : List Nat) (c : Nat), (∀ t ∈ rest, t - t0 < ttl) →
      rest.foldl (singleFlightStep ttl verify) (some ⟨v, t0⟩, c)
        = (some ⟨v, t0⟩, c) := by
  intro rest
  induction rest with
  | nil => intro c _; rfl
  | cons t ts ih =>
      intro c h
      have ht : t - t0 < ttl := h t (List.mem_cons_self t ts)
      have hstep : singleFlightStep ttl verify (some ⟨v, t0⟩, c) t
          = (some ⟨v, t0⟩, c) := by
        simp [singleFlightStep, cacheGet, httl, ht]
      rw [List.foldl_cons, hstep]
      exact ih c (fun x hx => h x (List.mem_cons_of_mem _ hx))

/-- Claim C2: when the cache TTL is positive and the same subject reference
occurs several times in a batch, the keyed mutex serializes the workers and
only the first one, finding the cache empty, invokes the executor; every
later worker hits the TTL-valid cache entry, so the executor runs exactly
once for that reference. -/
theorem sameSubject_executor_once (ttl t0 : Nat) (rest : List Nat)
    (verify : Nat → String) (httl : 0 < ttl)
    (hwin : ∀ t ∈ rest, t - t0 < ttl) :
    (singleFlightRun ttl verify (t0 :: rest)).2 = 1 := by
  have hfirst : singleFlightStep ttl verify (none, 0) t0
      = (some ⟨verify t0, t0⟩, 1) := by
    simp [singleFlightStep, cacheGet]
  unfold singleFlightRun
  rw [List.foldl_cons, hfirst,
    singleFlight_later_workers_hit ttl verify (verify t0) t0 httl rest 1 hwin]

/-- Witness for C2: three workers for the same subject with TTL 5 invoke the
executor once. -/
theorem sameSubject_executor_once_witness :
    (singleFlightRun 5 demoVerify [0, 1, 2]).2 = 1 :=
  sameSubject_executor_once 5 0 [1, 2] demoVerify (by decide) (by decide)

/-- Claim C3: when the wrapped handler does not finish before a positive
deadline, the timeout harness answers with status 500 and the timeout
`systemError`, and no item of the inner handler reaches the client. -/
theorem timeout_deterministic_500 (deadline handlerDuration : Nat)
    (handlerResp : ProviderResponse) (hdl : deadline ≠ 0)
    (hslow : ¬ handlerDuration < deadline) :
    (processTimeout deadline handlerDuration handlerResp).status = 500
      ∧ (processTimeout deadline handlerDuration handlerResp).systemError
          = some (timeoutSystemError deadline)
      ∧ (processTimeout deadline handlerDuration handlerResp).items = [] := by
  simp [processTimeout, hdl, hslow]

/-- Witness for C3: a 6000 ms handler under a 5000 ms deadline times out. -/
theorem timeout_deterministic_500_witness :
    (processTimeout 5000 6000 demoResp).status = 500
      ∧ (processTimeout 5000 6000 demoResp).systemError
          = some (timeoutSystemError 5000)
      ∧ (processTimeout 5000 6000 demoResp).items = [] :=
  timeout_deterministic_500 5000 6000 demoResp (by decide) (by decide)

/-- Helper: every verify worker emits an item carrying its own input key. -/
theorem verifyWorker_key (parse : String → Option Reference)
    (executorVerify : Reference → Except String String) (key : String) :
    ((verifyWorker parse executorVerify key).1).key = key := by
  unfold verifyWorker
  cases parse key with
  | none => rfl
  | some ref => cases hv : executorVerify ref <;> simp [hv]

/-- Counterexample for C6: a batch repeating the same key twice yields two
items carrying that key, not exactly one. -/
theorem verify_duplicate_keys_two_items :
    countKey (verifyHandler demoParseFail demoExec ["a", "a"]) "a" = 2 := by
  decide

/-- Claim C6 as amended: the verify handler emits exactly one item per
occurrence of a string in the request's keys, so the number of items whose
key equals a given string is that string's multiplicity in the keys list
(exactly one only when the string occurs once). -/
theorem verify_one_item_per_occurrence (parse : String → Option Reference)
    (executorVerify : Reference → Except String String) (keys : List String)
    (k : String) :
    countKey (verifyHandler parse executorVerify keys) k = keys.count k := by
  induction keys with
  | nil => rfl
  | cons h t ih =>
      simp only [countKey, verifyHandler, List.map_cons, List.filter_cons,
        List.count_cons, verifyWorker_key] at ih ⊢
      by_cases hk : (h == k) = true
      · simp [hk, ih]
      · simp [hk, ih]

/-- Claim C7: the items of a timed verify batch are collected in completion
order: the collected sequence is sorted by worker completion time, is a
permutation of the per-key worker results (so output position is decided by
completion, not by the position in the request's keys list), and the
response's items are exactly that sequence. -/
theorem verify_items_completion_order (parse : String → Option Reference)
    (executorVerify : Reference → Except String String)
    (keyTimes : List (String × Nat)) :
    List.Sorted completionOrder
        (collectByCompletion (verifyWorkerResults parse executorVerify keyTimes))
      ∧ List.Perm
          (collectByCompletion (verifyWorkerResults parse executorVerify keyTimes))
          (verifyWorkerResults parse executorVerify keyTimes)
      ∧ (verifyHandlerTimed parse executorVerify keyTimes).items
          = (collectByCompletion
              (verifyWorkerResults parse executorVerify keyTimes)).map
              (fun r => r.1) :=
  ⟨List.sorted_insertionSort completionOrder _,
    List.perm_insertionSort completionOrder _, rfl⟩
